import Mathlib

set_option maxRecDepth 100000

/-!
Verification of the Diwan batch source-rewriting scripts
(`fix_errors.py`, `fix_user_controller.py`, `fix_notifications.py`)
against their natural-language specification.

The scripts are shallowly embedded: text buffers are `List Char`,
Python `re.sub` / `str.replace` are modelled by a small backtracking
matcher over the exact pattern shapes the scripts use (literal runs,
`\s*` and `\s+`, negated character classes `[^...]+`, alternations of
literals, and capturing groups), and the line-indexed patcher of
`fix_user_controller.py` is modelled as a structurally recursive scan
over the list of lines.  File-system behaviour (read / write-back) is
modelled as a trace of operations, and the `__main__` driver of
`fix_errors.py` as exception-propagating sequencing.

Note: brace characters inside string literals are written with the
escapes `\x7b` (left brace) and `\x7d` (right brace).
-/

/-- Python whitespace test for `\s` and `str.lstrip` (ASCII range, which is
all that occurs in the targeted TypeScript sources). -/
def isPyWs (c : Char) : Bool :=
  c == ' ' || c == '\t' || c == '\n' || c == '\r' || c == '\x0b' || c == '\x0c'

/-- One atom of a regex pattern, covering exactly the constructs used by the
scripts: a literal run, `\s*` (`ws false`) or `\s+` (`ws true`), a negated
character class `[^excl]+`, and an alternation of literal strings. -/
inductive Atom where
  | lit : List Char → Atom
  | ws : Bool → Atom
  | cls : List Char → Atom
  | alt : List (List Char) → Atom

/-- Length of the maximal whitespace run at the front of `s`. -/
def wsRun : List Char → Nat
  | [] => 0
  | c :: cs => if isPyWs c then wsRun cs + 1 else 0

/-- Length of the maximal run of characters not in `excl` at the front of `s`. -/
def clsRun (excl : List Char) : List Char → Nat
  | [] => 0
  | c :: cs => if excl.contains c then 0 else clsRun excl cs + 1

/-- Try candidate lengths from `hi` down to `lo` (greedy order, as Python's
backtracking does for greedy quantifiers), returning the first success. -/
def tryLens {R : Type} (lo hi : Nat) (f : Nat → Option R) : Option R :=
  ((List.range' lo (hi + 1 - lo)).reverse).findSome? f

/-- Backtracking matcher for a sequence of atoms at the start of `s`, in
continuation-passing style: `k` receives the unconsumed rest of the input.
Greedy quantifiers retry shorter lengths when the continuation fails, which
is Python's backtracking order. -/
def matchAtoms {R : Type} : List Atom → List Char → (List Char → Option R) → Option R
  | [], s, k => k s
  | Atom.lit l :: ts, s, k =>
      if l.isPrefixOf s then matchAtoms ts (s.drop l.length) k else none
  | Atom.ws plus :: ts, s, k =>
      tryLens (if plus then 1 else 0) (wsRun s) (fun n => matchAtoms ts (s.drop n) k)
  | Atom.cls excl :: ts, s, k =>
      tryLens 1 (clsRun excl s) (fun n => matchAtoms ts (s.drop n) k)
  | Atom.alt alts :: ts, s, k =>
      alts.findSome? (fun a => if a.isPrefixOf s then matchAtoms ts (s.drop a.length) k else none)

/-- A pattern is a list of segments; a segment marked `true` is a capturing
group `(...)` around its atoms.  Matching returns the unconsumed rest and
the captured groups in order of the opening parentheses. -/
def matchSegs : List (Bool × List Atom) → List Char → Option (List Char × List (List Char))
  | [], s => some (s, [])
  | (cap, atoms) :: segs, s =>
      matchAtoms atoms s (fun s1 =>
        (matchSegs segs s1).map (fun pr =>
          (pr.1, if cap then s.take (s.length - s1.length) :: pr.2 else pr.2)))

/-- One piece of a replacement template: a literal run or a group
back-reference `\k`. -/
inductive RTok where
  | lit : List Char → RTok
  | grp : Nat → RTok

/-- Instantiate a replacement template with the captured groups. -/
def buildRepl (gs : List (List Char)) : List RTok → List Char
  | [] => []
  | RTok.lit l :: rs => l ++ buildRepl gs rs
  | RTok.grp n :: rs => gs.getD (n - 1) [] ++ buildRepl gs rs

/-- Core of `re.sub`: scan left to right, replace each non-overlapping
leftmost match, resume strictly after the match (the matched patterns are
never zero-width; a zero-width success is treated as no match).  `cap` is
the `count` argument of `re.sub` (`0` = unbounded).  `fuel` bounds the
recursion; `s.length + 1` is always sufficient since every step consumes at
least one character. -/
def subScanF (segs : List (Bool × List Atom)) (rep : List RTok) :
    Nat → Nat → List Char → List Char × Nat
  | _, 0, s => (s, 0)
  | cap, fuel + 1, s =>
    match matchSegs segs s with
    | some (rest, gs) =>
        if rest.length < s.length then
          if cap == 1 then (buildRepl gs rep ++ rest, 1)
          else
            let pr := subScanF segs rep (cap - 1) fuel rest
            (buildRepl gs rep ++ pr.1, pr.2 + 1)
        else
          match s with
          | [] => ([], 0)
          | c :: cs =>
              let pr := subScanF segs rep cap fuel cs
              (c :: pr.1, pr.2)
    | none =>
        match s with
        | [] => ([], 0)
        | c :: cs =>
            let pr := subScanF segs rep cap fuel cs
            (c :: pr.1, pr.2)

/-- `re.sub(pattern, repl, s, count)`: the rewritten buffer together with the
number of substitutions performed. -/
def reSub (segs : List (Bool × List Atom)) (rep : List RTok) (cap : Nat)
    (s : List Char) : List Char × Nat :=
  subScanF segs rep cap (s.length + 1) s

/-- Python `str.replace(old, new)`: replace all non-overlapping leftmost
occurrences (a literal is the degenerate one-segment pattern). -/
def pyReplace (old new s : List Char) : List Char :=
  (reSub [(false, [Atom.lit old])] [RTok.lit new] 0 s).1

/-- Python's substring test `pat in s`. -/
def hasSub (pat : List Char) : List Char → Bool
  | [] => pat.isPrefixOf []
  | c :: cs => pat.isPrefixOf (c :: cs) || hasSub pat cs

/-- Number of positions of `s` at which `pat` occurs (all start positions,
including overlapping ones). -/
def occCount (pat : List Char) : List Char → Nat
  | [] => if pat.isPrefixOf [] then 1 else 0
  | c :: cs => (if pat.isPrefixOf (c :: cs) then 1 else 0) + occCount pat cs

/-- Python `str.lstrip()`. -/
def pyLstrip (s : List Char) : List Char := s.dropWhile isPyWs

/-! ### fix_errors.py, `fix_status_controller`: the five `re.sub` rules -/

/-- Pattern of the first rule of `fix_status_controller`. -/
def obPat : List Char := "orderBy: \x7b createdAt: 'desc' \x7d".toList

/-- Replacement of the first rule of `fix_status_controller`. -/
def obNew : List Char := "orderBy: \x7b timestamp: 'desc' \x7d".toList

def stStatusSegs1 : List (Bool × List Atom) := [(false, [Atom.lit obPat])]

def stStatusRep1 : List RTok := [RTok.lit obNew]

def stStatusSegs2 : List (Bool × List Atom) :=
  [(false, [Atom.lit ("createdAt: true,".toList), Atom.ws false, Atom.lit ("user:".toList)])]

def stStatusRep2 : List RTok := [RTok.lit ("timestamp: true,\n        user:".toList)]

def stStatusSegs3 : List (Bool × List Atom) :=
  [(false, [Atom.lit ("userId: ".toList)]),
   (true, [Atom.alt ["validatedData.assignToId".toList, "document.createdById".toList,
                     "doc.createdById".toList]])]

def stStatusRep3 : List RTok := [RTok.lit ("recipientUserId: ".toList), RTok.grp 1]

def stStatusSegs4 : List (Bool × List Atom) :=
  [(false, [Atom.lit ("select: \x7b id: true, fullName: true, role: true, status: true \x7d".toList)])]

def stStatusRep4 : List RTok :=
  [RTok.lit ("select: \x7b id: true, fullName: true, role: true, isActive: true \x7d".toList)]

def stStatusSegs5 : List (Bool × List Atom) :=
  [(false, [Atom.lit ("assignee.status !== 'ACTIVE'".toList)])]

def stStatusRep5 : List RTok := [RTok.lit ("!assignee.isActive".toList)]

/-- The pure text transformation of `fix_status_controller` (the five
`re.sub` calls, in source order). -/
def fixStatusText (s : List Char) : List Char :=
  let s1 := (reSub stStatusSegs1 stStatusRep1 0 s).1
  let s2 := (reSub stStatusSegs2 stStatusRep2 0 s1).1
  let s3 := (reSub stStatusSegs3 stStatusRep3 0 s2).1
  let s4 := (reSub stStatusSegs4 stStatusRep4 0 s3).1
  (reSub stStatusSegs5 stStatusRep5 0 s4).1

/-! ### fix_errors.py, `fix_user_controller`: the ten `re.sub` rules -/

def urSegs1 : List (Bool × List Atom) :=
  [(false, [Atom.lit ("import \x7b PrismaClient, Role, UserStatus \x7d from '../generated/prisma';".toList)])]

def urRep1 : List RTok :=
  [RTok.lit ("import \x7b PrismaClient, UserRole \x7d from '../generated/prisma';".toList)]

def urSegs3 : List (Bool × List Atom) :=
  [(false, [Atom.lit ("createdAt: true,".toList), Atom.ws false]),
   (true, [Atom.alt ["details".toList, "user".toList]]),
   (false, [Atom.lit (":".toList)])]

def urRep3 : List RTok :=
  [RTok.lit ("timestamp: true,\n          ".toList), RTok.grp 1, RTok.lit (":".toList)]

def urSegs4 : List (Bool × List Atom) :=
  [(false, [Atom.lit ("userId: ".toList)]),
   (true, [Atom.alt ["newUser.id".toList, "updatedUser.id".toList, "existingUser.id".toList]])]

def urRep4 : List RTok := [RTok.lit ("recipientUserId: ".toList), RTok.grp 1]

def urSegs5 : List (Bool × List Atom) :=
  [(false, [Atom.lit ("status: z.nativeEnum(UserStatus).optional()".toList)])]

def urRep5 : List RTok := [RTok.lit ("isActive: z.boolean().optional()".toList)]

def urSegs6 : List (Bool × List Atom) := [(false, [Atom.lit ("status: 'ACTIVE'".toList)])]

def urRep6 : List RTok := [RTok.lit ("isActive: true".toList)]

def urSegs7 : List (Bool × List Atom) := [(false, [Atom.lit ("errors: error.errors".toList)])]

def urRep7 : List RTok := [RTok.lit ("errors: error.issues".toList)]

def urSegs8 : List (Bool × List Atom) :=
  [(false, [Atom.lit (",".toList), Atom.ws false, Atom.lit ("status: true".toList)])]

def urRep8 : List RTok := []

def urSegs9 : List (Bool × List Atom) :=
  [(true, [Atom.lit ("departmentId: true,".toList), Atom.ws false,
           Atom.lit ("createdAt: true,".toList), Atom.ws false,
           Atom.lit ("updatedAt: true,".toList)])]

def urRep9 : List RTok :=
  [RTok.grp 1,
   RTok.lit ("\n          _count: \x7b\n            select: \x7b\n              createdDocuments: true,\n              assignedDocuments: true\n            \x7d\n          \x7d,".toList)]

def urSegs10 : List (Bool × List Atom) :=
  [(true, [Atom.lit ("\x7d);".toList), Atom.ws false, Atom.lit ("\x7d".toList), Atom.ws false,
           Atom.lit ("catch (error) \x7b".toList), Atom.ws false,
           Atom.lit ("console.error('Error fetching users:', error);".toList), Atom.ws false,
           Atom.lit ("res.status(500).json(\x7b message: 'Internal server error' \x7d);".toList),
           Atom.ws false, Atom.lit ("\x7d".toList), Atom.ws false, Atom.lit ("\x7d;".toList)])]

def urRep10 : List RTok :=
  [RTok.lit ("  \x7d catch (error) \x7b\n    console.error('Error fetching users:', error);\n    return res.status(500).json(\x7b message: 'Internal server error' \x7d);\n  \x7d\n\x7d;".toList)]

/-- The pure text transformation of the regex-based `fix_user_controller`
in `fix_errors.py` (ten `re.sub` calls in source order; the last has
`count=1`). -/
def fixUserRegexText (s : List Char) : List Char :=
  let s1 := (reSub urSegs1 urRep1 0 s).1
  let s2 := (reSub stStatusSegs1 stStatusRep1 0 s1).1
  let s3 := (reSub urSegs3 urRep3 0 s2).1
  let s4 := (reSub urSegs4 urRep4 0 s3).1
  let s5 := (reSub urSegs5 urRep5 0 s4).1
  let s6 := (reSub urSegs6 urRep6 0 s5).1
  let s7 := (reSub urSegs7 urRep7 0 s6).1
  let s8 := (reSub urSegs8 urRep8 0 s7).1
  let s9 := (reSub urSegs9 urRep9 0 s8).1
  (reSub urSegs10 urRep10 1 s9).1

/-! ### fix_errors.py, `fix_search_controller` -/

def seSegs1 : List (Bool × List Atom) := [(false, [Atom.lit ("mode: 'insensitive'".toList)])]

def seRep1 : List RTok := [RTok.lit ("mode: 'insensitive' as const".toList)]

def seSegs2 : List (Bool × List Atom) := [(false, [Atom.lit ("categories: \x7b".toList)])]

def seRep2 : List RTok := [RTok.lit ("category: \x7b".toList)]

def seSegs3 : List (Bool × List Atom) :=
  [(false, [Atom.lit ("role: true,".toList), Atom.ws false, Atom.lit ("status: true,".toList)])]

def seRep3 : List RTok := [RTok.lit ("role: true,".toList)]

def seSegs5 : List (Bool × List Atom) :=
  [(true, [Atom.ws true, Atom.lit ("users: users.map(user => (\x7b".toList),
           Atom.cls ['\x7d'], Atom.lit ("department: user.department?.name".toList)])]

def seRep5 : List RTok := [RTok.grp 1]

def seSegs6 : List (Bool × List Atom) :=
  [(false, [Atom.lit ("\x7b content: \x7b contains: query, mode: 'insensitive' as const \x7d \x7d,".toList)])]

def seRep6 : List RTok := []

/-- The pure text transformation of `fix_search_controller`. -/
def fixSearchText (s : List Char) : List Char :=
  let s1 := (reSub seSegs1 seRep1 0 s).1
  let s2 := (reSub seSegs2 seRep2 0 s1).1
  let s3 := (reSub seSegs3 seRep3 0 s2).1
  let s4 := (reSub urSegs6 urRep6 0 s3).1
  let s5 := (reSub seSegs5 seRep5 0 s4).1
  (reSub seSegs6 seRep6 0 s5).1

/-! ### fix_errors.py, `fix_auth_controller` and `fix_upload_middleware` -/

def auSegs : List (Bool × List Atom) :=
  [(false, [Atom.lit ("return res.status(429).json(response);".toList)])]

def auRep : List RTok := [RTok.lit ("res.status(429).json(response);\n      return;".toList)]

/-- The pure text transformation of `fix_auth_controller` (`count=1`). -/
def fixAuthText (s : List Char) : List Char := (reSub auSegs auRep 1 s).1

def upSegs : List (Bool × List Atom) :=
  [(true, [Atom.lit ("next();".toList), Atom.ws false, Atom.lit ("\x7d;".toList)])]

def upRep : List RTok := [RTok.lit ("return next();\n\x7d;".toList)]

/-- The pure text transformation of `fix_upload_middleware`. -/
def fixUploadText (s : List Char) : List Char := (reSub upSegs upRep 0 s).1

/-! ### fix_notifications.py -/

def ntSegs : List (Bool × List Atom) :=
  [(true, [Atom.ws true]),
   (false, [Atom.lit ("recipientUserId: ".toList)]),
   (true, [Atom.cls [',', '\n']]),
   (false, [Atom.lit (",\n".toList), Atom.ws true, Atom.lit ("title: ".toList),
            Atom.cls ['\n'], Atom.lit (",\n".toList), Atom.ws true,
            Atom.lit ("message: ".toList)]),
   (true, [Atom.cls ['\n']]),
   (false, [Atom.lit (",\n".toList), Atom.ws true, Atom.lit ("type: ".toList),
            Atom.cls ['\n'], Atom.lit (",\n".toList), Atom.ws true,
            Atom.lit ("relatedId: ".toList)]),
   (true, [Atom.cls ['\n']])]

def ntRep : List RTok :=
  [RTok.grp 1, RTok.lit ("recipientUserId: ".toList), RTok.grp 2, RTok.lit (",\n".toList),
   RTok.grp 1, RTok.lit ("message: ".toList), RTok.grp 3, RTok.lit (",\n".toList),
   RTok.grp 1, RTok.lit ("messageAr: ".toList), RTok.grp 3,
   RTok.lit (", // TODO: Add Arabic translation\n".toList),
   RTok.grp 1, RTok.lit ("documentId: ".toList), RTok.grp 4, RTok.lit (",\n".toList),
   RTok.grp 1, RTok.lit ("departmentId: currentUser.departmentId || \"\"".toList)]

/-- The pure text transformation of `fix_notifications` in
`fix_notifications.py`. -/
def fixNotificationsText (s : List Char) : List Char := (reSub ntSegs ntRep 0 s).1

/-! ### fix_user_controller.py: the line-indexed patcher

String constants of the guards and replacements, in source order. -/

def ruOld : List Char := "Role, UserStatus".toList
def ruNew : List Char := "UserRole".toList
def znrPat : List Char := "z.nativeEnum(Role)".toList
def znrNew : List Char := "z.nativeEnum(UserRole)".toList
def znusGuard : List Char := "z.nativeEnum(UserStatus)".toList
def znusOld : List Char := "status: z.nativeEnum(UserStatus).optional()".toList
def znusNew : List Char := "isActive: z.boolean().optional()".toList
def whOld : List Char := "if (status) where.status = status;".toList
def whNew : List Char := "if (status) where.isActive = status === 'ACTIVE';".toList
def stTrue : List Char := "status: true,".toList
def cntGuard : List Char := "_count:".toList
def obGuard : List Char := "orderBy: \x7b createdAt:".toList
def aLogLine : List Char := "activityLog".toList
def caTrue : List Char := "createdAt: true,".toList
def tsTrue : List Char := "timestamp: true,".toList
def uidNew : List Char := "userId: newUser.id,".toList
def uidNewR : List Char := "recipientUserId: newUser.id,".toList
def uidUpd : List Char := "userId: updatedUser.id,".toList
def uidUpdR : List Char := "recipientUserId: updatedUser.id,".toList
def uidEx : List Char := "userId: existingUser.id,".toList
def uidExR : List Char := "recipientUserId: existingUser.id,".toList
def sActive : List Char := "status: 'ACTIVE'".toList
def iActiveT : List Char := "isActive: true".toList
def stTrueNc : List Char := "status: true".toList
def sInactiveEq : List Char := "status === 'INACTIVE'".toList
def notIsActive : List Char := "!isActive".toList
def sInactive : List Char := "status: 'INACTIVE'".toList
def iActiveF : List Char := "isActive: false".toList
def whereActive : List Char := "where: \x7b status: 'ACTIVE' \x7d".toList
def whereIsActive : List Char := "where: \x7b isActive: true \x7d".toList
def errErr : List Char := "errors: error.errors".toList
def errIss : List Char := "errors: error.issues".toList
def vdStatus : List Char := "validatedData.status".toList
def vdIsActive : List Char := "validatedData.isActive".toList
def r500 : List Char := "res.status(500).json(\x7b message:".toList
def retStr : List Char := "return".toList
def r201 : List Char := "res.status(201).json".toList
def rjsonBrace : List Char := "res.json(\x7b".toList
def rjsonMsg : List Char := "res.json(\x7b message:".toList
def obraceStr : List Char := ['\x7b']
def cbraceStr : List Char := ['\x7d']

/-- Python idiom `line.replace(old, new) if g in line else line`. -/
def guardReplace (g old new line : List Char) : List Char :=
  if hasSub g line then pyReplace old new line else line

/-- Source lines 18-31: the import fix (only at index 1), the `Role` and
`UserStatus` schema fixes, and the `where.status` fix, applied to the
current line in order. -/
def chainA (i : Nat) (line : List Char) : List Char :=
  let l1 := if i = 1 ∧ hasSub ruOld line then pyReplace ruOld ruNew line else line
  let l2 := guardReplace znrPat znrPat znrNew l1
  let l3 := guardReplace znusGuard znusOld znusNew l2
  guardReplace whOld whOld whNew l3

/-- Python slice `lines[max(0, i-10):i+1]`: the current line together with
up to ten preceding lines of the original buffer. -/
def window (lines : List (List Char)) (i : Nat) : List (List Char) :=
  (lines.drop (i - 10)).take (i + 1 - (i - 10))

/-- Source lines 55-56: the ActivityLog `orderBy` fix.  Note that the Python
guard `'activityLog' in lines[max(0, i-10):i+1]` is a membership test on a
list of lines, so it holds only when some line of the window is exactly
equal to the string `activityLog`. -/
def applyActivityFix (lines : List (List Char)) (i : Nat) (line : List Char) : List Char :=
  if hasSub obGuard line ∧ aLogLine ∈ window lines i then pyReplace obPat obNew line
  else line

/-- Source lines 55-70: the ActivityLog fixes, the Notification `userId`
fixes and the `status: 'ACTIVE'` fix. -/
def chainB (lines : List (List Char)) (i : Nat) (line : List Char) : List Char :=
  let l5 := applyActivityFix lines i line
  let l6 := if hasSub caTrue l5 ∧ 195 ≤ i ∧ i ≤ 230 then pyReplace caTrue tsTrue l5 else l5
  let l7 := guardReplace uidNew uidNew uidNewR l6
  let l8 := guardReplace uidUpd uidUpd uidUpdR l7
  let l9 := guardReplace uidEx uidEx uidExR l8
  guardReplace sActive sActive iActiveT l9

/-- Source lines 79-85: the delete-function status checks (indices 456-472). -/
def chain456 (line : List Char) : List Char :=
  guardReplace sInactive sInactive iActiveF
    (guardReplace sInactiveEq sInactiveEq notIsActive
      (guardReplace stTrueNc stTrueNc iActiveT line))

/-- Python `'    return ' + line.lstrip()`. -/
def addReturn (line : List Char) : List Char := "    return ".toList ++ pyLstrip line

/-- Source lines 79-109: the remaining per-line fixes after the index-guarded
deletions, ending with the missing-`return` insertions. -/
def chainC (i : Nat) (line : List Char) : List Char :=
  let l12 := if 456 ≤ i ∧ i ≤ 472 then chain456 line else line
  let l13 := guardReplace whereActive whereActive whereIsActive l12
  let l14 := guardReplace errErr errErr errIss l13
  let l15 := guardReplace vdStatus vdStatus vdIsActive l14
  let l16 := if hasSub r500 l15 ∧ ¬ hasSub retStr l15 then addReturn l15 else l15
  let l17 := if hasSub r201 l16 ∧ 318 ≤ i ∧ i ≤ 327 ∧ ¬ hasSub retStr l16 then addReturn l16 else l16
  let l18 := if hasSub rjsonBrace l17 ∧ 430 ≤ i ∧ i ≤ 433 ∧ ¬ hasSub retStr l17 then addReturn l17 else l17
  let l19 := if hasSub rjsonMsg l18 ∧ 488 ≤ i ∧ i ≤ 492 ∧ ¬ hasSub retStr l18 then addReturn l18 else l18
  if hasSub rjsonMsg l19 ∧ 545 ≤ i ∧ i ≤ 549 ∧ ¬ hasSub retStr l19 then addReturn l19 else l19

/-- One step of the brace-depth bookkeeping of source lines 42-51: a line
containing a left brace increments the depth (at most once per line). -/
def skipDepth (depth : Int) (l : List Char) : Int :=
  if hasSub obraceStr l then depth + 1 else depth

/-- The main `while` loop of `fix_user_controller` in
`fix_user_controller.py`.  `i` is the scan index into the original list of
lines; the mode `some depth` is the inner brace-skipping loop (source lines
40-52), `none` the ordinary per-line processing.  The third argument is the
not-yet-processed tail of the original lines. -/
def fixGo (lines : List (List Char)) : Nat → Option Int → List (List Char) → List (List Char)
  | _, none, [] => []
  | i, none, line0 :: rest =>
      if i = 69 ∧ hasSub stTrue (chainA i line0) then
        pyReplace stTrue [] (chainA i line0) :: fixGo lines (i + 1) none rest
      else if (80 ≤ i ∧ i ≤ 85) ∧ hasSub cntGuard (chainA i line0) then
        (if hasSub cbraceStr line0 then
          (if skipDepth 0 line0 - 1 = 0 then fixGo lines (i + 1) none rest
           else fixGo lines (i + 1) (some (skipDepth 0 line0 - 1)) rest)
         else fixGo lines (i + 1) (some (skipDepth 0 line0)) rest)
      else if (i = 287 ∨ i = 383) ∧ hasSub stTrue (chainB lines i (chainA i line0)) then
        pyReplace stTrue [] (chainB lines i (chainA i line0)) :: fixGo lines (i + 1) none rest
      else
        chainC i (chainB lines i (chainA i line0)) :: fixGo lines (i + 1) none rest
  | _, some _, [] => []
  | i, some depth, l :: ls =>
      if hasSub cbraceStr l then
        (if skipDepth depth l - 1 = 0 then fixGo lines (i + 1) none ls
         else fixGo lines (i + 1) (some (skipDepth depth l - 1)) ls)
      else fixGo lines (i + 1) (some (skipDepth depth l)) ls

/-- The whole line transformation of `fix_user_controller.py`: process the
original lines starting at index 0. -/
def fixUserLines (lines : List (List Char)) : List (List Char) :=
  fixGo lines 0 none lines

/-- Line-terminator test of Python `str.splitlines`. -/
def isLineTerm (c : Char) : Bool :=
  c == '\n' || c == '\r' || c == '\x0b' || c == '\x0c' || c == '\x1c' ||
  c == '\x1d' || c == '\x1e' || c == '\x85' || c == '\u2028' || c == '\u2029'

/-- Worker of `pySplitlines`; `cur` is the reversed current line. -/
def splitAux (cur : List Char) : List Char → List (List Char)
  | [] => [cur.reverse]
  | c :: cs =>
      if isLineTerm c then
        cur.reverse ::
          (if c == '\r' then
            (match cs with
             | [] => []
             | d :: ds =>
                 if d == '\n' then (if ds = [] then [] else splitAux [] ds)
                 else splitAux [] (d :: ds))
           else (if cs = [] then [] else splitAux [] cs))
      else splitAux (c :: cur) cs

/-- Python `str.splitlines()`: split on line terminators, which are not kept;
a trailing terminator does not produce a final empty line. -/
def pySplitlines : List Char → List (List Char)
  | [] => []
  | c :: cs => splitAux [] (c :: cs)

/-- Python `'\n'.join(lines)`. -/
def joinNL : List (List Char) → List Char
  | [] => []
  | [l] => l
  | l :: ls => l ++ '\n' :: joinNL ls

/-- The whole text transformation of `fix_user_controller.py`:
`read_text().splitlines()`, the loop, then `'\n'.join(new_lines)`. -/
def fixUserFileText (c : List Char) : List Char :=
  joinNL (fixUserLines (pySplitlines c))

/-! ### File-system behaviour -/

/-- One file-system operation performed by a fixer.  `writeTmp` and `rename`
never occur in the scripts; they are the operations the spec's atomic
write-back discipline would use. -/
inductive FsOp where
  | read : List Char → FsOp
  | writeTmp : List Char → List Char → FsOp
  | rename : List Char → List Char → FsOp
  | write : List Char → List Char → FsOp
deriving DecidableEq

def statusPath : List Char := "backend/src/controllers/statusController.ts".toList
def userPath : List Char := "backend/src/controllers/userController.ts".toList
def searchPath : List Char := "backend/src/controllers/searchController.ts".toList
def authPath : List Char := "backend/src/controllers/authController.ts".toList
def uploadPath : List Char := "backend/src/middleware/upload.ts".toList

/-- File-system trace of `fix_status_controller` on a file whose original
content is `orig`: `read_text`, then `write_text` of the transformed buffer
(source lines 12 and 45 of fix_errors.py). -/
def fixStatusOps (orig : List Char) : List FsOp :=
  [FsOp.read statusPath, FsOp.write statusPath (fixStatusText orig)]

/-- File-system trace of `fix_user_controller` in fix_user_controller.py
(source lines 10 and 114). -/
def fixUserLineOps (orig : List Char) : List FsOp :=
  [FsOp.read userPath, FsOp.write userPath (fixUserFileText orig)]

/-- True for operations that mutate the file system. -/
def isMutationOp : FsOp → Bool
  | FsOp.read _ => false
  | _ => true

/-- Modelled from the spec: the write-back discipline claimed in the spec's
`Written` state — write the new buffer to a temporary location, then rename
it over the original; when the new buffer equals the original, skip the
rename and avoid the no-op write altogether. -/
def atomicWriteClaim (p orig new : List Char) (tr : List FsOp) : Bool :=
  if new == orig then tr.all (fun op => !isMutationOp op)
  else
    match tr with
    | [FsOp.read p1, FsOp.writeTmp t new1, FsOp.rename t1 p2] =>
        p1 == p && new1 == new && t1 == t && p2 == p
    | _ => false

/-- Modelled from the spec (amended): the write-back performs exactly one
plain, unconditional write of the new buffer to the original path, with no
temporary file and no rename. -/
def directWriteSpec (p new : List Char) (tr : List FsOp) : Prop :=
  tr = [FsOp.read p, FsOp.write p new]

/-! ### The session driver (`__main__` of fix_errors.py) -/

/-- A file system as an association list from paths to contents. -/
abbrev Fsys : Type := List (List Char × List Char)

def fsRead (fs : Fsys) (p : List Char) : Option (List Char) :=
  match fs with
  | [] => none
  | e :: es => if e.1 == p then some e.2 else fsRead es p

def fsWrite (fs : Fsys) (p c : List Char) : Fsys :=
  match fs with
  | [] => [(p, c)]
  | e :: es => if e.1 == p then (p, c) :: es else e :: fsWrite es p c

/-- One fixer call: `read_text` raises (modelled as `Except.error` carrying
the failing path and the file system at that moment) when the file is
missing; otherwise the transformed buffer is written back. -/
def runFixer (p : List Char) (t : List Char → List Char) (fs : Fsys) :
    Except (List Char × Fsys) Fsys :=
  match fsRead fs p with
  | none => Except.error (p, fs)
  | some c => Except.ok (fsWrite fs p (t c))

/-- The `__main__` block of fix_errors.py (source lines 202-209): the five
fixers run in order, and an uncaught exception in one aborts the rest. -/
def fixErrorsMain (fs : Fsys) : Except (List Char × Fsys) Fsys :=
  (runFixer statusPath fixStatusText fs).bind (fun fs1 =>
  (runFixer userPath fixUserRegexText fs1).bind (fun fs2 =>
  (runFixer searchPath fixSearchText fs2).bind (fun fs3 =>
  (runFixer authPath fixAuthText fs3).bind (fun fs4 =>
  runFixer uploadPath fixUploadText fs4))))

/-! ### Spec-side predicate for claim C4 -/

/-- Modelled from the spec (claim C4's guard semantics): the guard text
occurs as a substring of the line or of one of the lines of the bounded
lookback window. -/
def substrWindowGuard (lines : List (List Char)) (i : Nat) (line : List Char) : Bool :=
  hasSub aLogLine line || (window lines i).any (fun l => hasSub aLogLine l)

/-! ### Concrete buffers used in the claim theorems -/

/-- Total number of brace characters in a buffer given as lines. -/
def braceTotal (ls : List (List Char)) : Nat :=
  (ls.map (fun l => l.count '\x7b' + l.count '\x7d')).sum

/-- Brace balance of a buffer given as lines: left braces minus right
braces. -/
def braceBal (ls : List (List Char)) : Int :=
  ((ls.map (fun l => l.count '\x7b')).sum : Int) - ((ls.map (fun l => l.count '\x7d')).sum : Int)

/-- The filler line used by the concrete buffers below: no guard of the
patcher matches it. -/
def dotLine : List Char := ['.']

/-- An indented `status: true,` line, as it appears in a select block. -/
def stLine69 : List Char := "    status: true,".toList

/-- A two-line buffer whose first line contains `activityLog` as a proper
substring and whose second line is an ActivityLog `orderBy` line. -/
def c4In : List (List Char) :=
  ["activityLog: \x7b".toList, "orderBy: \x7b createdAt: 'desc' \x7d".toList]

/-- An 87-line buffer with a six-line `_count:` block of two nested brace
groups starting at line index 80 (each line holds at most one brace, as in
the userController select block the rule targets). -/
def c5In : List (List Char) :=
  List.replicate 80 dotLine ++
  ["_count: \x7b".toList, "select: \x7b".toList, "createdDocuments: true,".toList,
   "assignedDocuments: true".toList, "\x7d".toList, "\x7d,".toList, "role: true".toList]

/-- A 71-line buffer whose line 69 is an indented `status: true,` line. -/
def c6In : List (List Char) :=
  List.replicate 69 dotLine ++ [stLine69, "tail".toList]

/-- The first 70 lines of a buffer that triggers the line-69 deletion rule. -/
def c6Pre : List (List Char) :=
  List.replicate 69 dotLine ++ [stLine69]

/-- Residual indentation left on line 69 after the rule fires. -/
def sp4 : List Char := "    ".toList

/-! ### Helper lemmas: prefixes, occurrence counts and substrings -/

theorem ipo_append (p t : List Char) : p.isPrefixOf (p ++ t) = true := by
  induction p with
  | nil => simp [List.isPrefixOf]
  | cons a as ih => simp [List.isPrefixOf, ih]

theorem ipo_exists {p s : List Char} (h : p.isPrefixOf s = true) : ∃ t, s = p ++ t := by
  induction p generalizing s with
  | nil => exact ⟨s, rfl⟩
  | cons a as ih =>
    cases s with
    | nil => simp [List.isPrefixOf] at h
    | cons b bs =>
      simp only [List.isPrefixOf, Bool.and_eq_true, beq_iff_eq] at h
      obtain ⟨t, ht⟩ := ih h.2
      exact ⟨t, by simp [h.1, ht]⟩

theorem occ_zero_of_append {p t : List Char} (l : List Char)
    (h : occCount p (l ++ t) = 0) : occCount p t = 0 := by
  induction l with
  | nil => exact h
  | cons a as ih =>
    apply ih
    simp only [List.cons_append, occCount, List.append_eq] at h
    split at h <;> omega

theorem occ_pos_of_prefix {p s : List Char} (h : p.isPrefixOf s = true) :
    0 < occCount p s := by
  cases s with
  | nil => simp [occCount, h]
  | cons c cs => simp [occCount, h]

theorem occ_pos_append (p pre suf : List Char) : 0 < occCount p (pre ++ p ++ suf) := by
  induction pre with
  | nil => exact occ_pos_of_prefix (ipo_append p suf)
  | cons a as ih =>
    have : occCount p (a :: (as ++ p ++ suf)) =
        (if p.isPrefixOf (a :: (as ++ p ++ suf)) then 1 else 0) + occCount p (as ++ p ++ suf) := rfl
    simp only [List.cons_append, List.append_assoc] at this ⊢
    simp only [List.append_assoc] at ih
    omega

theorem hasSub_iff_occ_pos (p s : List Char) : hasSub p s = true ↔ 0 < occCount p s := by
  induction s with
  | nil =>
    by_cases hp : p.isPrefixOf [] = true <;> simp [hasSub, occCount, hp]
  | cons c cs ih =>
    by_cases hp : p.isPrefixOf (c :: cs) = true <;>
      simp [hasSub, occCount, hp, ih]

theorem occ_pos_decomp {p s : List Char} (h : 0 < occCount p s) :
    ∃ pre suf, s = pre ++ p ++ suf := by
  induction s with
  | nil =>
    by_cases hp : p.isPrefixOf [] = true
    · obtain ⟨t, ht⟩ := ipo_exists hp
      exact ⟨[], t, by simpa using ht⟩
    · simp [occCount, hp] at h
  | cons c cs ih =>
    by_cases hp : p.isPrefixOf (c :: cs) = true
    · obtain ⟨t, ht⟩ := ipo_exists hp
      exact ⟨[], t, by simpa using ht⟩
    · simp [occCount, hp] at h
      obtain ⟨pre, suf, hps⟩ := ih h
      exact ⟨c :: pre, suf, by simp [hps]⟩

theorem hasSub_of_append_left {a b s : List Char} (h : hasSub (a ++ b) s = true) :
    hasSub a s = true := by
  obtain ⟨pre, suf, hps⟩ := occ_pos_decomp ((hasSub_iff_occ_pos _ _).mp h)
  have : s = pre ++ a ++ (b ++ suf) := by simp [hps]
  rw [hasSub_iff_occ_pos, this]
  exact occ_pos_append a pre (b ++ suf)

/-! ### Helper lemmas: `re.sub` with a literal pattern -/

theorem bool_eq_false {b : Bool} (h : ¬ b = true) : b = false := by
  cases b with
  | false => rfl
  | true => exact absurd rfl h

/-- A single-literal pattern matches exactly when the literal is a prefix. -/
theorem matchSegs_lit (p s : List Char) :
    matchSegs [(false, [Atom.lit p])] s =
      if p.isPrefixOf s then some (s.drop p.length, []) else none := by
  by_cases hp : p.isPrefixOf s = true <;>
    simp [matchSegs, matchAtoms, hp]

/-- If the literal pattern occurs nowhere in `s`, `re.sub` with any
replacement, count bound and sufficient fuel leaves `s` unchanged and
reports zero substitutions. -/
theorem subScan_no_occ (p : List Char) (rep : List RTok) (cap : Nat) :
    ∀ (s : List Char) (fuel : Nat), s.length < fuel → occCount p s = 0 →
      subScanF [(false, [Atom.lit p])] rep cap fuel s = (s, 0) := by
  intro s
  induction s with
  | nil =>
    intro fuel hf ho
    cases fuel with
    | zero => omega
    | succ f =>
      have hp : p.isPrefixOf ([] : List Char) = false := by
        by_cases hpp : p.isPrefixOf ([] : List Char) = true
        · simp [occCount, hpp] at ho
        · exact bool_eq_false hpp
      simp [subScanF, matchSegs_lit, hp]
  | cons c cs ih =>
    intro fuel hf ho
    cases fuel with
    | zero => omega
    | succ f =>
      have hp : p.isPrefixOf (c :: cs) = false := by
        by_cases hpp : p.isPrefixOf (c :: cs) = true
        · simp [occCount, hpp] at ho
        · exact bool_eq_false hpp
      have ho2 : occCount p cs = 0 := by
        simp [occCount, hp] at ho
        exact ho
      have hf2 : cs.length < f := by simp at hf; omega
      simp [subScanF, matchSegs_lit, hp, ih f hf2 ho2]

/-- If the literal pattern `p` occurs exactly once in `pre ++ p ++ suf`
(namely at position `pre.length`), unbounded `re.sub` replaces that
occurrence, leaves everything else unchanged and reports exactly one
substitution. -/
theorem subScan_unique_occ (p : List Char) (rep : List RTok) (hp : p ≠ []) :
    ∀ (pre suf : List Char) (fuel : Nat),
      occCount p (pre ++ p ++ suf) = 1 → (pre ++ p ++ suf).length < fuel →
      subScanF [(false, [Atom.lit p])] rep 0 fuel (pre ++ p ++ suf) =
        (pre ++ buildRepl [] rep ++ suf, 1) := by
  intro pre
  induction pre with
  | nil =>
    intro suf fuel ho hf
    cases fuel with
    | zero => omega
    | succ f =>
      have hpre : p.isPrefixOf (p ++ suf) = true := ipo_append p suf
      have hlen : 0 < p.length := by
        cases p with
        | nil => exact absurd rfl hp
        | cons a as => simp
      have hrest : ((p ++ suf).drop p.length) = suf := List.drop_left p suf
      have ho2 : occCount p suf = 0 := by
        cases p with
        | nil => exact absurd rfl hp
        | cons a as =>
          have heq : occCount (a :: as) ((a :: as) ++ suf) =
              (if (a :: as).isPrefixOf ((a :: as) ++ suf) then 1 else 0) +
                occCount (a :: as) (as ++ suf) := rfl
          simp only [List.nil_append] at ho
          rw [heq, if_pos hpre] at ho
          exact occ_zero_of_append as (by omega)
      have hf2 : suf.length < f := by
        simp only [List.nil_append, List.length_append] at hf
        omega
      have hlt2 : suf.length < (p ++ suf).length := by
        simp [List.length_append]
        omega
      have hsome : matchSegs [(false, [Atom.lit p])] (p ++ suf) = some (suf, []) := by
        rw [matchSegs_lit, hpre]
        simp [hrest]
      simp only [List.nil_append]
      simp [subScanF, hsome, hlt2, subScan_no_occ p rep 0 suf f hf2 ho2]
      intro h
      exact absurd h hp
  | cons a pre' ih =>
    intro suf fuel ho hf
    cases fuel with
    | zero => omega
    | succ f =>
      simp only [List.cons_append] at ho hf
      have hocc1 : 0 < occCount p (pre' ++ p ++ suf) := occ_pos_append p pre' suf
      have heq : occCount p (a :: (pre' ++ p ++ suf)) =
          (if p.isPrefixOf (a :: (pre' ++ p ++ suf)) then 1 else 0) +
            occCount p (pre' ++ p ++ suf) := rfl
      have hp0 : p.isPrefixOf (a :: (pre' ++ p ++ suf)) = false := by
        by_cases hh : p.isPrefixOf (a :: (pre' ++ p ++ suf)) = true
        · rw [heq, if_pos hh] at ho
          omega
        · exact bool_eq_false hh
      have ho2 : occCount p (pre' ++ p ++ suf) = 1 := by
        rw [heq, hp0] at ho
        simpa using ho
      have hf2 : (pre' ++ p ++ suf).length < f := by
        simp only [List.length_cons] at hf
        omega
      have hstep := ih suf f ho2 hf2
      have hnone : matchSegs [(false, [Atom.lit p])] (a :: (pre' ++ p ++ suf)) = none := by
        rw [matchSegs_lit, hp0]
        simp
      simp only [List.append_assoc] at hnone hstep
      simp only [List.cons_append]
      simp [subScanF, hnone, hstep]

/-- `str.replace` is the identity when the pattern does not occur. -/
theorem pyReplace_no_occ {p s : List Char} (r : List Char) (h : occCount p s = 0) :
    pyReplace p r s = s := by
  unfold pyReplace reSub
  rw [subScan_no_occ p [RTok.lit r] 0 s (s.length + 1) (by omega) h]

/-- When the pattern occurs, `str.replace` with a replacement of the same
length but different content changes the string. -/
theorem subScan_ne_of_occ (p r : List Char) (hp : p ≠ [])
    (hlen : r.length = p.length) (hne : r ≠ p) :
    ∀ (s : List Char) (fuel : Nat), s.length < fuel → 0 < occCount p s →
      (subScanF [(false, [Atom.lit p])] [RTok.lit r] 0 fuel s).1 ≠ s := by
  intro s
  induction s with
  | nil =>
    intro fuel hf ho
    exfalso
    have hnp : p.isPrefixOf ([] : List Char) = false := by
      cases p with
      | nil => exact absurd rfl hp
      | cons x xs => rfl
    simp [occCount, hnp] at ho
  | cons c cs ih =>
    intro fuel hf ho
    cases fuel with
    | zero => omega
    | succ f =>
      by_cases hpre : p.isPrefixOf (c :: cs) = true
      · obtain ⟨t, ht⟩ := ipo_exists hpre
        have h0 : 0 < p.length := by
          cases p with
          | nil => exact absurd rfl hp
          | cons x xs => simp
        have hrest : (c :: cs).drop p.length = t := by
          rw [ht]
          exact List.drop_left p t
        have hsome : matchSegs [(false, [Atom.lit p])] (c :: cs) = some (t, []) := by
          rw [matchSegs_lit, if_pos hpre, hrest]
        have hlt : t.length < (c :: cs).length := by
          rw [ht]
          simp [List.length_append]
          omega
        have hlt2 : t.length < cs.length + 1 := by simpa using hlt
        have hres : (subScanF [(false, [Atom.lit p])] [RTok.lit r] 0 (f + 1) (c :: cs)).1 =
            r ++ (subScanF [(false, [Atom.lit p])] [RTok.lit r] 0 f t).1 := by
          simp [subScanF, hsome, hlt2, buildRepl]
        rw [hres, ht]
        intro hcontra
        have h2 := congrArg (fun l => List.take r.length l) hcontra
        simp only at h2
        rw [List.take_left] at h2
        rw [hlen, List.take_left] at h2
        exact hne h2
      · have hnone : matchSegs [(false, [Atom.lit p])] (c :: cs) = none := by
          rw [matchSegs_lit, if_neg hpre]
        have ho2 : 0 < occCount p cs := by
          have heq : occCount p (c :: cs) =
              (if p.isPrefixOf (c :: cs) then 1 else 0) + occCount p cs := rfl
          rw [heq, if_neg hpre] at ho
          simpa using ho
        have hres : (subScanF [(false, [Atom.lit p])] [RTok.lit r] 0 (f + 1) (c :: cs)).1 =
            c :: (subScanF [(false, [Atom.lit p])] [RTok.lit r] 0 f cs).1 := by
          simp [subScanF, hnone]
        rw [hres]
        intro hcontra
        have h3 : (subScanF [(false, [Atom.lit p])] [RTok.lit r] 0 f cs).1 = cs := by
          simpa using hcontra
        exact ih f (by simp at hf; omega) ho2 h3

/-- Wrapper of `subScan_ne_of_occ` for `pyReplace`. -/
theorem pyReplace_ne (p r : List Char) (hp : p ≠ []) (hlen : r.length = p.length)
    (hne : r ≠ p) {s : List Char} (h : 0 < occCount p s) : pyReplace p r s ≠ s := by
  unfold pyReplace reSub
  exact subScan_ne_of_occ p r hp hlen hne s (s.length + 1) (by omega) h

/-! ### Helper lemmas: `splitlines` and `join` -/

theorem splitAux_nil (cur : List Char) : splitAux cur [] = [cur.reverse] := by
  rw [splitAux.eq_def]

theorem splitAux_cons_nl (cur : List Char) (cs : List Char) :
    splitAux cur ('\n' :: cs) = cur.reverse :: (if cs = [] then [] else splitAux [] cs) := by
  rw [splitAux.eq_def]
  dsimp only
  rw [if_pos (by decide : isLineTerm '\n' = true)]
  rw [if_neg (by decide : ¬ ('\n' == '\r') = true)]

theorem splitAux_cons_term (cur : List Char) {c : Char} (h : isLineTerm c = true)
    (cs : List Char) :
    splitAux cur (c :: cs) =
      cur.reverse ::
        (if c == '\r' then
          (match cs with
           | [] => []
           | d :: ds =>
               if d == '\n' then (if ds = [] then [] else splitAux [] ds)
               else splitAux [] (d :: ds))
         else (if cs = [] then [] else splitAux [] cs)) := by
  rw [splitAux.eq_def]
  dsimp only
  rw [if_pos h]

theorem splitAux_cons_other (cur : List Char) {c : Char} (h : ¬ isLineTerm c = true)
    (cs : List Char) :
    splitAux cur (c :: cs) = splitAux (c :: cur) cs := by
  rw [splitAux.eq_def]
  dsimp only
  rw [if_neg h]

theorem splitAux_ne_nil (s : List Char) : ∀ cur : List Char, splitAux cur s ≠ [] := by
  induction s with
  | nil => intro cur; simp [splitAux_nil]
  | cons c cs ih =>
    intro cur
    by_cases h : isLineTerm c = true
    · rw [splitAux_cons_term cur h cs]
      simp
    · rw [splitAux_cons_other cur h cs]
      exact ih (c :: cur)

theorem joinNL_cons (a : List Char) {ls : List (List Char)} (h : ls ≠ []) :
    joinNL (a :: ls) = a ++ '\n' :: joinNL ls := by
  cases ls with
  | nil => exact absurd rfl h
  | cons b bs => rfl

/-- When every line terminator of `s` is a plain `'\n'` and `s` ends with a
newline, joining the split lines with `'\n'` reconstructs `s` minus that
final newline. -/
theorem join_splitAux (s : List Char) :
    ∀ cur : List Char, (s.all fun ch => !(isLineTerm ch) || ch == '\n') = true →
      s.getLast? = some '\n' →
      joinNL (splitAux cur s) ++ ['\n'] = cur.reverse ++ s := by
  induction s with
  | nil =>
    intro cur h1 h2
    simp at h2
  | cons c cs ih =>
    intro cur h1 h2
    have h1c : (!(isLineTerm c) || c == '\n') = true := by
      simp only [List.all_cons, Bool.and_eq_true] at h1
      exact h1.1
    have h1' : (cs.all fun ch => !(isLineTerm ch) || ch == '\n') = true := by
      simp only [List.all_cons, Bool.and_eq_true] at h1
      exact h1.2
    by_cases hterm : isLineTerm c = true
    · have hcn : c = '\n' := by
        rw [hterm] at h1c
        simp at h1c
        exact h1c
      subst hcn
      by_cases hcs : cs = []
      · subst hcs
        rw [splitAux_cons_nl]
        simp [joinNL]
      · have h2' : cs.getLast? = some '\n' := by
          cases cs with
          | nil => exact absurd rfl hcs
          | cons d ds => simpa [List.getLast?_cons_cons] using h2
        have hrec := ih [] h1' h2'
        simp only [List.reverse_nil, List.nil_append] at hrec
        have hsplit : splitAux cur ('\n' :: cs) = cur.reverse :: splitAux [] cs := by
          rw [splitAux_cons_nl, if_neg hcs]
        rw [hsplit, joinNL_cons _ (splitAux_ne_nil cs []), List.append_assoc,
            List.cons_append, hrec]
    · have hcs : cs ≠ [] := by
        intro hcs
        subst hcs
        simp [List.getLast?] at h2
        rw [h2] at hterm
        exact hterm (by simp [isLineTerm])
      have h2' : cs.getLast? = some '\n' := by
        cases cs with
        | nil => exact absurd rfl hcs
        | cons d ds => simpa [List.getLast?_cons_cons] using h2
      rw [splitAux_cons_other cur hterm cs, ih (c :: cur) h1' h2']
      simp

/-! ### Helper lemmas: the line-indexed patcher -/

theorem drop_eq_of_drop_eq {l1 l2 : List (List Char)} {a : Nat}
    (h : l1.drop a = l2.drop a) {b : Nat} (hab : a ≤ b) :
    l1.drop b = l2.drop b := by
  have hb : b = a + (b - a) := by omega
  rw [hb, ← List.drop_drop, ← List.drop_drop, h]

theorem window_congr {l1 l2 : List (List Char)} {j : Nat}
    (h : l1.drop (j - 10) = l2.drop (j - 10)) : window l1 j = window l2 j := by
  unfold window
  rw [h]

theorem chainB_congr {l1 l2 : List (List Char)} {j : Nat}
    (h : window l1 j = window l2 j) (x : List Char) :
    chainB l1 j x = chainB l2 j x := by
  unfold chainB applyActivityFix
  rw [h]

theorem chainA_dot (i : Nat) : chainA i dotLine = dotLine := by
  simp [chainA, guardReplace,
    (by decide : hasSub ruOld dotLine = false),
    (by decide : hasSub znrPat dotLine = false),
    (by decide : hasSub znusGuard dotLine = false),
    (by decide : hasSub whOld dotLine = false)]

theorem chainB_dot (lines : List (List Char)) (i : Nat) :
    chainB lines i dotLine = dotLine := by
  simp [chainB, applyActivityFix, guardReplace,
    (by decide : hasSub obGuard dotLine = false),
    (by decide : hasSub caTrue dotLine = false),
    (by decide : hasSub uidNew dotLine = false),
    (by decide : hasSub uidUpd dotLine = false),
    (by decide : hasSub uidEx dotLine = false),
    (by decide : hasSub sActive dotLine = false)]

theorem chain456_dot : chain456 dotLine = dotLine := by
  simp [chain456, guardReplace,
    (by decide : hasSub stTrueNc dotLine = false),
    (by decide : hasSub sInactiveEq dotLine = false),
    (by decide : hasSub sInactive dotLine = false)]

theorem chainC_dot (i : Nat) : chainC i dotLine = dotLine := by
  simp [chainC, guardReplace, chain456_dot,
    (by decide : hasSub whereActive dotLine = false),
    (by decide : hasSub errErr dotLine = false),
    (by decide : hasSub vdStatus dotLine = false),
    (by decide : hasSub r500 dotLine = false),
    (by decide : hasSub r201 dotLine = false),
    (by decide : hasSub rjsonBrace dotLine = false),
    (by decide : hasSub rjsonMsg dotLine = false)]

/-- A filler line `"."` passes through the loop unchanged at every index. -/
theorem fixGo_dot_step (lines : List (List Char)) (i : Nat) (rest : List (List Char)) :
    fixGo lines i none (dotLine :: rest) = dotLine :: fixGo lines (i + 1) none rest := by
  simp only [fixGo, chainA_dot, chainB_dot, chainC_dot]
  simp [(by decide : hasSub stTrue dotLine = false),
        (by decide : hasSub cntGuard dotLine = false)]

/-- A block of `n` filler lines passes through unchanged, advancing the scan
index by `n`. -/
theorem fixGo_dots (lines : List (List Char)) :
    ∀ (n : Nat) (i : Nat) (rest : List (List Char)),
      fixGo lines i none (List.replicate n dotLine ++ rest) =
        List.replicate n dotLine ++ fixGo lines (i + n) none rest := by
  intro n
  induction n with
  | zero => intro i rest; simp
  | succ k ih =>
    intro i rest
    rw [List.replicate_succ, List.cons_append, fixGo_dot_step, ih (i + 1) rest]
    simp only [List.replicate_succ, List.cons_append]
    have : i + 1 + k = i + (k + 1) := by omega
    rw [this]

/-- One loop step at index 69 on an indented `status: true,` line: the
matched text is removed but the emptied line is appended. -/
theorem fixGo_69_step (lines : List (List Char)) (rest : List (List Char)) :
    fixGo lines 69 none (stLine69 :: rest) = sp4 :: fixGo lines 70 none rest := by
  have h1 : hasSub stTrue (chainA 69 stLine69) = true := by decide
  have h2 : pyReplace stTrue [] (chainA 69 stLine69) = sp4 := by decide
  simp [fixGo, h1, h2]

theorem fsRead_fsWrite_ne (fs : Fsys) {p q : List Char} (c : List Char)
    (h : (q == p) = false) : fsRead (fsWrite fs q c) p = fsRead fs p := by
  induction fs with
  | nil => simp [fsWrite, fsRead, h]
  | cons e es ih =>
    by_cases he : (e.1 == q) = true
    · have h1 : (e.1 == p) = false := by
        have hq : e.1 = q := eq_of_beq he
        rw [hq]
        exact h
      simp [fsWrite, fsRead, he, h, h1]
    · simp [fsWrite, fsRead, bool_eq_false he, ih]

/-! ### Claim theorems -/

/-- C1 (counterexample): the spec's atomic write-back discipline is refuted
at the concrete original content `"x"`.  The transformed buffer is
byte-identical to the original, yet the trace of `fix_status_controller`
still contains a mutating write — a single plain `write_text` to the
original path, with no temporary file and no rename. -/
theorem C1_atomic_write_refuted :
    fixStatusText ("x".toList) = "x".toList ∧
    fixStatusOps ("x".toList) = [FsOp.read statusPath, FsOp.write statusPath ("x".toList)] ∧
    atomicWriteClaim statusPath ("x".toList) ("x".toList) (fixStatusOps ("x".toList)) = false := by
  refine ⟨by decide, by decide, by decide⟩

/-- C1 (amended): for every original content, the write-back of
`fix_status_controller` and of the line-based `fix_user_controller` is one
direct, unconditional write of the transformed buffer to the original path:
no temporary file, no rename, and no skip when the buffer is unchanged. -/
theorem C1_direct_unconditional_write (orig : List Char) :
    directWriteSpec statusPath (fixStatusText orig) (fixStatusOps orig) ∧
    directWriteSpec userPath (fixUserFileText orig) (fixUserLineOps orig) :=
  ⟨rfl, rfl⟩

/-- C2 (counterexample): with a file system in which `statusController.ts`
is missing but `userController.ts` is present and would be changed by its
fixer, the `__main__` driver of fix_errors.py aborts at the first fixer:
the error propagates with the file system untouched, so the remaining
files — including the user controller, whose pending rewrite is shown to be
non-trivial — are never processed, and no aggregate failure is reported. -/
theorem C2_isolation_refuted :
    fixErrorsMain [(userPath, errErr)] = Except.error (statusPath, [(userPath, errErr)]) ∧
    fixUserRegexText errErr = errIss ∧ errIss ≠ errErr := by
  refine ⟨rfl, by decide, by decide⟩

/-- C2 (amended): a fatal read error in one file aborts the whole session at
that point: if the first file is unreadable nothing is processed, and if the
second file is unreadable the first file's write has happened but the
remaining three fixers never run; the failure propagates as an uncaught
exception instead of an aggregate report. -/
theorem C2_session_abort_on_failure :
    (∀ fs : Fsys, fsRead fs statusPath = none →
      fixErrorsMain fs = Except.error (statusPath, fs)) ∧
    (∀ (fs : Fsys) (c : List Char), fsRead fs statusPath = some c →
      fsRead fs userPath = none →
      fixErrorsMain fs = Except.error (userPath, fsWrite fs statusPath (fixStatusText c))) := by
  constructor
  · intro fs h
    unfold fixErrorsMain runFixer
    rw [h]
    rfl
  · intro fs c h1 h2
    have h3 : fsRead (fsWrite fs statusPath (fixStatusText c)) userPath = none := by
      rw [fsRead_fsWrite_ne fs (fixStatusText c) (by decide)]
      exact h2
    unfold fixErrorsMain runFixer
    rw [h1]
    simp only [Except.bind]
    rw [h3]

/-- C2 (witness): the abort theorem applied to the empty file system. -/
theorem C2_session_abort_on_failure_witness :
    fixErrorsMain [] = Except.error (statusPath, []) :=
  C2_session_abort_on_failure.1 [] rfl

/-- C3 (code bug): the `fix_upload_middleware` rule is not idempotent.  On
the buffer `"next();\n};"` a first application inserts `return `; a second
application matches again inside the first application's own output (one
substitution is performed) and corrupts it to `"return return next();\n};"`,
instead of finding zero further matches as the spec's idempotence contract
requires. -/
theorem C3_upload_rule_not_idempotent :
    fixUploadText ("next();\n\x7d;".toList) = ("return next();\n\x7d;".toList) ∧
    fixUploadText ("return next();\n\x7d;".toList) = ("return return next();\n\x7d;".toList) ∧
    (reSub upSegs upRep 0 ("return next();\n\x7d;".toList)).2 = 1 := by
  refine ⟨by decide, by decide, by decide⟩

/-- C4 (counterexample): in the two-line buffer `c4In` the guard text
`activityLog` occurs as a substring of a window line (so the claim's
containment test holds at line 1, as witnessed by `substrWindowGuard`), yet
the patcher leaves the buffer unchanged, because the Python guard
`'activityLog' in lines[max(0, i-10):i+1]` is a list-membership test that
requires some window line to be exactly equal to `activityLog`. -/
theorem C4_substring_guard_refuted :
    fixUserLines c4In = c4In ∧
    substrWindowGuard c4In 1 (c4In.getD 1 []) = true ∧
    hasSub obPat (c4In.getD 1 []) = true ∧
    aLogLine ∉ window c4In 1 := by
  refine ⟨by decide, by decide, by decide, by decide⟩

/-- C4 (amended): the ActivityLog `orderBy` fix rewrites a line if and only
if the full pattern `orderBy: { createdAt: 'desc' }` occurs as a substring
of the line and some line of the lookback window (the current line and
up to ten preceding original lines) is exactly equal to `activityLog` —
an equality membership test over the window, not a substring test. -/
theorem C4_guard_equality_membership (lines : List (List Char)) (i : Nat) (line : List Char) :
    applyActivityFix lines i line ≠ line ↔
      (hasSub obPat line = true ∧ aLogLine ∈ window lines i) := by
  unfold applyActivityFix
  by_cases hg : (hasSub obGuard line = true ∧ aLogLine ∈ window lines i)
  · rw [if_pos hg]
    constructor
    · intro hne
      have hocc : 0 < occCount obPat line := by
        by_contra hno
        have h0 : occCount obPat line = 0 := by omega
        exact hne (pyReplace_no_occ obNew h0)
      exact ⟨(hasSub_iff_occ_pos _ _).mpr hocc, hg.2⟩
    · rintro ⟨hs, -⟩
      exact pyReplace_ne obPat obNew (by decide) (by decide) (by decide)
        ((hasSub_iff_occ_pos _ _).mp hs)
  · rw [if_neg hg]
    constructor
    · intro hne
      exact absurd rfl hne
    · rintro ⟨hs, hmem⟩
      exfalso
      apply hg
      refine ⟨?_, hmem⟩
      have hsplit : obGuard ++ (" 'desc' \x7d".toList) = obPat := by decide
      exact hasSub_of_append_left (by rw [hsplit]; exact hs)

/-- C5 (counterexample): on the 87-line buffer `c5In` the `_count:` rule
does delete exactly the six-line brace-balanced block at lines 80-85, but
the total number of brace characters remaining in the buffer is NOT
unchanged — the deleted block carries its four braces away. -/
theorem C5_brace_total_refuted :
    fixUserLines c5In = c5In.take 80 ++ c5In.drop 86 ∧
    braceTotal (fixUserLines c5In) ≠ braceTotal c5In := by
  refine ⟨by decide, by decide⟩

/-- C5 (amended): the `_count:` rule deletes exactly the lines of the full
brace-balanced block starting at the guard line and no other lines; the
deleted block contains equally many left and right braces, so the brace
balance (left braces minus right braces) of the buffer is unchanged, while
the total brace count drops by the block's braces. -/
theorem C5_block_deletion_balance :
    fixUserLines c5In = c5In.take 80 ++ c5In.drop 86 ∧
    braceBal (fixUserLines c5In) = braceBal c5In := by
  refine ⟨by decide, by decide⟩

/-- C6 (counterexample): on the 71-line buffer `c6In` whose line 69 is
`    status: true,`, the rule replaces the matched text by the empty string
but appends the emptied line: the output has the same number of lines and
its line 69 is a non-empty whitespace-only residual line, so the deleted
line's newline is not removed. -/
theorem C6_no_blank_line_refuted :
    fixUserLines c6In = List.replicate 69 dotLine ++ [sp4, "tail".toList] ∧
    (fixUserLines c6In).length = c6In.length ∧
    (fixUserLines c6In).getD 69 [] ≠ [] ∧
    ((fixUserLines c6In).getD 69 []).all isPyWs = true := by
  refine ⟨by decide, by decide, by decide, by decide⟩

/-- C6 (amended): when an index-guarded rule's replacement is the empty
string, the line itself is not deleted: for any continuation of the buffer,
the emptied line remains in the output at its position, reduced to its
leading whitespace (a residual blank line), and the rest of the buffer is
processed from the next index.  Only the brace-block skip removes lines
outright. -/
theorem C6_residual_blank_line (rest : List (List Char)) :
    fixUserLines (c6Pre ++ rest) =
      (List.replicate 69 dotLine ++ [sp4]) ++ fixGo (c6Pre ++ rest) 70 none rest ∧
    sp4 ≠ [] ∧ sp4.all isPyWs = true := by
  refine ⟨?_, by decide, by decide⟩
  unfold fixUserLines
  have h1 : c6Pre ++ rest = List.replicate 69 dotLine ++ (stLine69 :: rest) := by
    unfold c6Pre
    simp
  have h2 : fixGo (c6Pre ++ rest) 0 none (c6Pre ++ rest) =
      fixGo (c6Pre ++ rest) 0 none (List.replicate 69 dotLine ++ (stLine69 :: rest)) :=
    congrArg _ h1
  rw [h2, fixGo_dots _ 69 0 _]
  simp only [Nat.zero_add]
  rw [fixGo_69_step]
  simp

/-- C7: for every buffer in which the literal pattern
`orderBy: { createdAt: 'desc' }` occurs at exactly one position, the first
rule of `fix_status_controller` replaces that occurrence with
`orderBy: { timestamp: 'desc' }`, leaves the rest of the buffer unchanged,
and performs exactly one substitution. -/
theorem C7_single_occurrence_rewrite (pre suf : List Char)
    (h : occCount obPat (pre ++ obPat ++ suf) = 1) :
    reSub stStatusSegs1 stStatusRep1 0 (pre ++ obPat ++ suf) =
      (pre ++ obNew ++ suf, 1) := by
  unfold reSub
  have hs := subScan_unique_occ obPat stStatusRep1 (by decide) pre suf
    ((pre ++ obPat ++ suf).length + 1) h (by omega)
  rw [show stStatusSegs1 = [(false, [Atom.lit obPat])] from rfl, hs]
  rw [show buildRepl [] stStatusRep1 = obNew from by decide]

/-- C7 (witness): the unique-occurrence theorem applied to the buffer
`"A" ++ pattern ++ "B"`. -/
theorem C7_single_occurrence_rewrite_witness :
    reSub stStatusSegs1 stStatusRep1 0 (("A".toList) ++ obPat ++ ("B".toList)) =
      (("A".toList) ++ obNew ++ ("B".toList), 1) :=
  C7_single_occurrence_rewrite ("A".toList) ("B".toList) (by decide)

/-- C8: the in-memory transformations are deterministic pure functions of
the buffer content: two runs of the `fix_status_controller` rule chain, or
of the `fix_notifications` rule, on equal input buffers produce byte-equal
outputs. -/
theorem C8_determinism (b1 b2 : List Char) (h : b1 = b2) :
    fixStatusText b1 = fixStatusText b2 ∧
    fixNotificationsText b1 = fixNotificationsText b2 := by
  subst h
  exact ⟨rfl, rfl⟩

/-- C8 (witness): determinism at the concrete buffer `"x"`. -/
theorem C8_determinism_witness :
    fixStatusText ("x".toList) = fixStatusText ("x".toList) ∧
    fixNotificationsText ("x".toList) = fixNotificationsText ("x".toList) :=
  C8_determinism ("x".toList) ("x".toList) rfl

/-- C9: for every file content whose line terminators are all plain `'\n'`
and which ends with a newline, if no rule of the line-indexed patcher
changes any line, the written-back output is exactly the content minus its
final trailing newline — in particular the output differs from the input:
`splitlines` drops the terminators and `'\n'.join` does not restore the
last one. -/
theorem C9_trailing_newline_dropped (c : List Char)
    (h1 : (c.all fun ch => !(isLineTerm ch) || ch == '\n') = true)
    (h2 : c.getLast? = some '\n')
    (h3 : fixUserLines (pySplitlines c) = pySplitlines c) :
    fixUserFileText c ++ ['\n'] = c ∧ fixUserFileText c ≠ c := by
  have hc : c ≠ [] := by
    intro h
    subst h
    simp at h2
  have hjoin : joinNL (pySplitlines c) ++ ['\n'] = c := by
    cases c with
    | nil => exact absurd rfl hc
    | cons d ds =>
      have hsp := join_splitAux (d :: ds) [] h1 h2
      simpa [pySplitlines] using hsp
  have hout : fixUserFileText c = joinNL (pySplitlines c) := by
    unfold fixUserFileText
    rw [h3]
  constructor
  · rw [hout]
    exact hjoin
  · rw [hout]
    intro heq
    have hl := congrArg List.length hjoin
    simp only [List.length_append, List.length_cons, List.length_nil] at hl
    rw [heq] at hl
    omega

/-- C9 (witness): the content `"p\n"` comes back as `"p"`. -/
theorem C9_trailing_newline_dropped_witness :
    fixUserFileText ("p\n".toList) ++ ['\n'] = "p\n".toList ∧
    fixUserFileText ("p\n".toList) ≠ "p\n".toList :=
  C9_trailing_newline_dropped ("p\n".toList) (by decide) (by decide) (by decide)

/-- C10: every line-index guard of the patcher is evaluated against the
original buffer's numbering: the processing of the lines from scan index
`j` onward (in either ordinary or brace-skipping mode) depends only on the
remaining input lines and on the original buffer from line `j - 10` on (the
lookback window), and not at all on the buffer's earlier lines — in
particular not on deletions the pass performs before index `j`, so earlier
deletions never shift the index at which a later index-guarded rule
fires. -/
theorem C10_index_guards_on_original_numbering :
    ∀ (rest : List (List Char)) (lines1 lines2 : List (List Char)) (j : Nat) (m : Option Int),
      lines1.drop (j - 10) = lines2.drop (j - 10) →
      fixGo lines1 j m rest = fixGo lines2 j m rest := by
  intro rest
  induction rest with
  | nil =>
    intro l1 l2 j m h
    cases m <;> rfl
  | cons r0 rs ih =>
    intro l1 l2 j m h
    have h' : l1.drop (j + 1 - 10) = l2.drop (j + 1 - 10) :=
      drop_eq_of_drop_eq h (by omega)
    have e : ∀ m' : Option Int, fixGo l1 (j + 1) m' rs = fixGo l2 (j + 1) m' rs :=
      fun m' => ih l1 l2 (j + 1) m' h'
    cases m with
    | some depth =>
      simp only [fixGo, e]
    | none =>
      have hB : ∀ x, chainB l1 j x = chainB l2 j x :=
        chainB_congr (window_congr h)
      simp only [fixGo, hB, e]

/-- C10 (witness): two buffers that differ only in their first line are
processed identically from index 12 on. -/
theorem C10_index_guards_on_original_numbering_witness :
    fixGo ["a".toList, "c".toList, "d".toList] 12 none ["errors: error.errors".toList] =
      fixGo ["b".toList, "c".toList, "d".toList] 12 none ["errors: error.errors".toList] :=
  C10_index_guards_on_original_numbering ["errors: error.errors".toList]
    ["a".toList, "c".toList, "d".toList] ["b".toList, "c".toList, "d".toList]
    12 none (by decide)
